import Mathlib

/-!
Verification development for the Sim.B.A.D vessel/channel hydrodynamic model.

The definitions below are a shallow embedding of
`Power_Energy_Estimation/Source/Modules/vessel_channel.py` (class
`VesselProperties`) and of the module-level grounding-speed scan of the two
driver scripts `Cargo_UnrChannel_W400m_ho30m.py` and
`Motorvessel_M6_W150m_ho3m.py`.

Modelling conventions:
* Python floats are modelled as exact real numbers; `np.sqrt`, `np.arccos`,
  `np.cos`, `np.exp`, `np.power` become `Real.sqrt`, `Real.arccos`,
  `Real.cos`, `Real.exp` and real (rpow) exponentiation.
* Where a claim is specifically about numpy's non-raising IEEE behaviour
  (inf / nan instead of an exception) we use the small `NpFloat` type, whose
  operations record numpy's actual semantics on the singular set
  (`np.sqrt` of a negative number is nan, division of a positive finite
  number by `0.0` is `+inf`, `np.arccos` outside `[-1, 1]` is nan, a
  negative base raised to the fractional power `1.5` is nan).
* An `assert` failure (`AssertionError`, the code's configuration error) is
  modelled by `Option.none`.
* The mutable object state that is actually carried across method calls is
  captured by `Config`: every other attribute written by
  `calculation_init` / `calculation_Hooft` / `calculation_Romisch` /
  `calculation_Ankudinov` / `calculate_squat` (`Tm`, `Ukc`, `C_B`, `Weff`,
  `As`, `Ach`, `Kch`, `Kc`, `hm`, `hmT`, `Vcr`, `Vlim`, `Fnh`, `Shb`,
  `Srb`, `Srs`, `Sab`, `Sas`, `Squat_v`, ...) is recomputed by those methods
  before ever being read again, so those attributes are derived values, not
  state.  The fields that are read and also written are exactly `hT`
  (clamped), `C_WP` and `C_M` (derived once when absent).
* The `while` loop of the driver scripts is modelled by a fuel-bounded
  recursion over the 1000 sample indices of `np.linspace(0.01, 20, 1000)`;
  running out of fuel models the `IndexError` raised by `velocity[1000]`.
-/

namespace VC

/-- Constructor inputs of `VesselProperties.__init__` that are read by the
calculation methods.  The attribute `type` and the driver-level
`safety_margin` are never read by `calculation_init` or the squat methods and
are omitted.  `C_WP`/`C_M` are optional (`None` in Python); `Npro` is a
Python integer. -/
@[ext]
structure Config where
  L : ℝ
  B : ℝ
  Tb : ℝ
  Ts : ℝ
  Displ : ℝ
  C_WP : Option ℝ
  C_M : Option ℝ
  Npro : ℤ
  bulbous_bow : Bool
  transom_stern : Bool
  rho : ℝ
  Dwl : ℝ
  h0 : ℝ
  hT : ℝ
  W : ℝ
  Nb : ℝ

noncomputable section

/-- `self.Tm = (self.Tb+self.Ts)/2`. -/
def Tm (c : Config) : ℝ := (c.Tb + c.Ts)/2

/-- `self.Ukc = (self.h0+self.Dwl)/self.Tm`. -/
def Ukc (c : Config) : ℝ := (c.h0 + c.Dwl)/Tm c

/-- `self.C_B = self.Displ/(self.L*self.B*self.Tm*self.rho)`. -/
def C_B (c : Config) : ℝ := c.Displ/(c.L*c.B*Tm c*c.rho)

/-- `self.Disp = self.Displ/self.rho`. -/
def Disp (c : Config) : ℝ := c.Displ/c.rho

/-- `self.Weff = 7.04*self.B/(self.C_B**0.85)`. -/
def Weff (c : Config) : ℝ := 7.04*c.B/(C_B c ^ (0.85:ℝ))

/-- Value of `self.C_WP` after the optional derivation
`if self.C_WP is None: self.C_WP = (1 + 2 * self.C_B) / 3`. -/
def C_WPval (c : Config) : ℝ := c.C_WP.getD ((1 + 2*C_B c)/3)

/-- Value of `self.C_M` after the optional derivation
`if self.C_M is None: self.C_M = 1.006 - 0.0056 * self.C_B ** (-3.56)`. -/
def C_Mval (c : Config) : ℝ := c.C_M.getD (1.006 - 0.0056*(C_B c ^ (-3.56:ℝ)))

/-- `self.As = self.C_M*self.B*self.Tm` (with `C_M` already derived). -/
def As (c : Config) : ℝ := C_Mval c*c.B*Tm c

/-- Value of `self.hT` after the clamp
`if (self.h0+self.Dwl) < self.hT: self.hT = self.h0+self.Dwl`. -/
def clamphT (c : Config) : ℝ := if c.h0 + c.Dwl < c.hT then c.h0 + c.Dwl else c.hT

/-- The mutation `calculation_init` performs on the cross-call state:
`hT` is clamped, an absent `C_WP`/`C_M` is replaced by its derived value.
All other fields are only read. -/
def normalizeConfig (c : Config) : Config :=
  { c with hT := clamphT c, C_WP := some (C_WPval c), C_M := some (C_Mval c) }

/-- `self.Ach`, branch on `self.W <= self.Weff` (evaluated after the clamp,
but independent of `hT`). -/
def Ach (c : Config) : ℝ :=
  if c.W ≤ Weff c then (c.W + c.Nb*(c.h0 + c.Dwl))*(c.h0 + c.Dwl)
  else Weff c*(c.h0 + c.Dwl)

/-- Conjunction of the three `assert` statements of `calculation_init`,
evaluated on the state after the clamp and the optional derivations
(`d.hT` is the clamped value there). -/
def validGeomPost (d : Config) : Prop :=
  (if d.W ≤ Weff d then 0 < d.hT ∧ d.hT ≤ d.h0 + d.Dwl ∧ 0 ≤ d.Nb
   else d.hT = 0 ∧ d.Nb = 0) ∧ 0 < d.Npro

instance validGeomPost.decidable (d : Config) : Decidable (validGeomPost d) := by
  unfold validGeomPost
  infer_instance

/-- `self.Kch = 0.58*((self.h0+self.Dwl)*self.L/self.B/self.Tm)**0.125`. -/
def Kch (c : Config) : ℝ := 0.58*(((c.h0 + c.Dwl)*c.L/c.B/Tm c) ^ (0.125:ℝ))

/-- `self.Kc = (2*np.cos((np.pi+np.arccos(1-self.As/self.Ach))/3))**1.5`
(exact-real model; `KcNp` below records the numpy behaviour outside the
arccos domain). -/
def Kc (c : Config) : ℝ :=
  (2*Real.cos ((Real.pi + Real.arccos (1 - As c/Ach c))/3)) ^ (1.5:ℝ)

/-- `self.hm`, branch on `self.W <= self.Weff`. -/
def hm (c : Config) : ℝ :=
  if c.W ≤ Weff c then Ach c/(c.W + 2*c.Nb*(c.h0 + c.Dwl))
  else Ach c/(Weff c + 2*c.Nb*(c.h0 + c.Dwl))

/-- `self.hmT = (self.h0+self.Dwl)-self.hT*(1-self.hm/(self.h0+self.Dwl))`,
reading the current (post-clamp) `hT` of the state it runs on. -/
def hmT (d : Config) : ℝ := (d.h0 + d.Dwl) - d.hT*(1 - hm d/(d.h0 + d.Dwl))

/-- Three-way case on `hT` computing the critical speed, reading the current
(post-clamp) `hT`.  After the clamp `hT <= h0+Dwl`, so the final `else 0` is
unreachable (in Python no branch would run and `self.Vcr` would be unset). -/
def Vcr (d : Config) : ℝ :=
  if d.hT = 0 then Kch d*Real.sqrt (9.81*(d.h0 + d.Dwl))
  else if d.hT < d.h0 + d.Dwl then
    (Kch d*(1 - d.hT/(d.h0 + d.Dwl)) + Kc d*d.hT/(d.h0 + d.Dwl))*Real.sqrt (9.81*hmT d)
  else if d.hT = d.h0 + d.Dwl then Kc d*Real.sqrt (9.81*hmT d)
  else 0

/-- `self.Vlim = self.Vcr` (the line `self.Vlim = 0.9*self.Vcr` is commented
out in the source). -/
def Vlim (d : Config) : ℝ := Vcr d

/-- `calculation_init`: clamp `hT`, derive absent `C_WP`/`C_M`, check the
asserts; `none` models the `AssertionError`.  On success the mutated state
is `normalizeConfig c`; every derived attribute set by the call is a
function of that state (`Weff`, `Ach`, `Vcr`, `Vlim`, ...). -/
def calculation_init (c : Config) : Option Config :=
  if validGeomPost (normalizeConfig c) then some (normalizeConfig c) else none

/-- `self.Fnh = v/np.sqrt(9.81*(self.h0+self.Dwl))`. -/
def Fnh (d : Config) (v : ℝ) : ℝ := v/Real.sqrt (9.81*(d.h0 + d.Dwl))

/-- Return value of `calculation_Hooft` (exact-real model), reading the
current (post-init) `hT`.  The zero-overwrite
`if self.Ukc < 1.2 and self.C_B >= 0.8: self.Shb = 0` is folded in. -/
def Shb (d : Config) (v : ℝ) : ℝ :=
  if d.hT = 0 then
    if Ukc d < 1.2 ∧ 0.8 ≤ C_B d then 0
    else 2*C_B d*d.B*Tm d*(Fnh d v ^ 2)/d.L/Real.sqrt (1 - Fnh d v ^ 2)
  else 0

/-- `self.Kdt = 0.155*np.sqrt((self.h0+self.Dwl)/self.Tm)`. -/
def Kdt (d : Config) : ℝ := 0.155*Real.sqrt ((d.h0 + d.Dwl)/Tm d)

/-- `self.Cf = (10*self.B*self.C_B/self.L)**2`. -/
def Cf (d : Config) : ℝ := (10*d.B*C_B d/d.L) ^ 2

/-- `self.Cv = 8*np.power(v/self.Vcr,2)*(0.0625+np.power(v/self.Vcr-0.5,4))`. -/
def Cv (d : Config) (v : ℝ) : ℝ := 8*((v/Vcr d) ^ 2)*(0.0625 + (v/Vcr d - 0.5) ^ 4)

/-- Bow squat of `calculation_Romisch`, three-way case on the current `hT`;
the zero-overwrites of each branch are folded in.  The final `else 0` is
unreachable after the clamp. -/
def Srb (d : Config) (v : ℝ) : ℝ :=
  if d.hT = 0 then
    if Ukc d < 1.2 ∧ C_B d < 0.8 then 0 else Cv d v*Cf d*Kdt d*Tm d
  else if d.hT < d.h0 + d.Dwl then 0
  else if d.hT = d.h0 + d.Dwl then
    if Ukc d < 1.2 ∧ 0.8 < C_B d ∧ v*3600/1852 < 7 then 0 else Cv d v*Cf d*Kdt d*Tm d
  else 0

/-- Stern squat of `calculation_Romisch`: `self.Srs = self.Srb/self.Cf` in
the unrestricted and canal branches, `0` in the restricted branch. -/
def Srs (d : Config) (v : ℝ) : ℝ :=
  if d.hT = 0 then Srb d v/Cf d
  else if d.hT < d.h0 + d.Dwl then 0
  else if d.hT = d.h0 + d.Dwl then Srb d v/Cf d
  else 0

/-- `self.Kps`: `0.15` for one propeller, else `0.13`. -/
def Kps (d : Config) : ℝ := if d.Npro = 1 then 0.15 else 0.13

/-- `self.Phu = 1.7*self.C_B*(self.B*self.Tm/self.L**2)+0.004*self.C_B**2`. -/
def Phu (d : Config) : ℝ := 1.7*C_B d*(d.B*Tm d/d.L ^ 2) + 0.004*(C_B d ^ 2)

/-- `self.Pfnh = np.power(self.Fnh,1.8+0.4*self.Fnh)`. -/
def Pfnh (d : Config) (v : ℝ) : ℝ := Fnh d v ^ ((1.8:ℝ) + 0.4*Fnh d v)

/-- `self.Pht = 1+0.35/self.Ukc**2`. -/
def Pht (d : Config) : ℝ := 1 + 0.35/(Ukc d ^ 2)

/-- `self.Sh = self.C_B*self.Tm*self.hT*self.As/self.Ach/(self.h0+self.Dwl)**2`. -/
def Sh (d : Config) : ℝ := C_B d*Tm d*d.hT*As d/Ach d/((d.h0 + d.Dwl) ^ 2)

/-- `self.Pch1`: `1` when `hT == 0`, else
`1+10*self.Sh-1.5*(1+self.Sh)*np.sqrt(self.Sh)`. -/
def Pch1 (d : Config) : ℝ :=
  if d.hT = 0 then 1 else 1 + 10*Sh d - 1.5*(1 + Sh d)*Real.sqrt (Sh d)

/-- The value assigned to `self.Sab` at line 237, before the trim
correction: `self.L*(1+self.Kps)*self.Phu*self.Pfnh*self.Pht*self.Pch1`. -/
def SabPre (d : Config) (v : ℝ) : ℝ := d.L*(1 + Kps d)*Phu d*Pfnh d v*Pht d*Pch1 d

/-- `self.Kpt`: `0.15` for one propeller, else `0.20`. -/
def Kpt (d : Config) : ℝ := if d.Npro = 1 then 0.15 else 0.20

/-- `self.Kbt`: `0.1` with a bulbous bow, else `0`. -/
def Kbt (d : Config) : ℝ := if d.bulbous_bow then 0.1 else 0

/-- `self.Ktrt`: `0.04` with a transom stern, else `0`. -/
def Ktrt (d : Config) : ℝ := if d.transom_stern then 0.04 else 0

/-- `self.Kt1t = (self.Ts - self.Tb)/(self.Ts+self.Tb)`. -/
def Kt1t (d : Config) : ℝ := (d.Ts - d.Tb)/(d.Ts + d.Tb)

/-- `self.Ktr = np.power(self.C_B,2+0.8*self.Pch1/self.C_B)-(0.15*self.Kps+self.Kpt)-(self.Kbt+self.Ktrt+self.Kt1t)`. -/
def Ktr (d : Config) : ℝ :=
  C_B d ^ ((2:ℝ) + 0.8*Pch1 d/C_B d) - (0.15*Kps d + Kpt d) - (Kbt d + Ktrt d + Kt1t d)

/-- `self.Phtm = 1-np.exp(2.5*(1-self.Ukc)/self.Fnh)`. -/
def Phtm (d : Config) (v : ℝ) : ℝ := 1 - Real.exp (2.5*(1 - Ukc d)/Fnh d v)

/-- `self.Pch2`: `1` when `hT == 0`, else `1-5*self.Sh`. -/
def Pch2 (d : Config) : ℝ := if d.hT = 0 then 1 else 1 - 5*Sh d

/-- `self.Trim = -1.7*self.L*self.Phu*self.Pfnh*self.Phtm*self.Ktr*self.Pch2`. -/
def Trim (d : Config) (v : ℝ) : ℝ :=
  -1.7*d.L*Phu d*Pfnh d v*Phtm d v*Ktr d*Pch2 d

/-- Final bow squat of `calculation_Ankudinov`: three-way case on the
current `hT`; in the canal branch the zero-overwrite applies when
`Ukc < 1.2 and C_B > 0.8 and Vnoeu > 7`.  The final `else` is unreachable
after the clamp (Python would keep the line-237 value there). -/
def Sab (d : Config) (v : ℝ) : ℝ :=
  if d.hT = 0 then 0
  else if d.hT < d.h0 + d.Dwl then SabPre d v - 0.5*Trim d v
  else if d.hT = d.h0 + d.Dwl then
    if Ukc d < 1.2 ∧ 0.8 < C_B d ∧ 7 < v*3600/1852 then 0
    else SabPre d v - 0.5*Trim d v
  else SabPre d v

/-- Final stern squat of `calculation_Ankudinov` (`self.Sas` reads the
line-237 `self.Sab` before it is overwritten). -/
def Sas (d : Config) (v : ℝ) : ℝ :=
  if d.hT = 0 then 0
  else if d.hT < d.h0 + d.Dwl then SabPre d v + 0.5*Trim d v
  else if d.hT = d.h0 + d.Dwl then
    if Ukc d < 1.2 ∧ 0.8 < C_B d ∧ 7 < v*3600/1852 then 0
    else SabPre d v + 0.5*Trim d v
  else 0

/-- The governing squat selected by `calculate_squat` on the post-init
state: `np.max` over the candidates of the branch selected by the current
`hT`.  The final `else 0` is unreachable after the clamp (Python would
leave `self.Squat_v` unset and raise on the return). -/
def squatVal (d : Config) (v : ℝ) : ℝ :=
  if d.hT = 0 then max (Shb d v) (max (Srb d v) (Srs d v))
  else if d.hT < d.h0 + d.Dwl then max (Sab d v) (Sas d v)
  else if d.hT = d.h0 + d.Dwl then
    max (max (Sab d v) (Sas d v)) (max (Srb d v) (Srs d v))
  else 0

/-- `calculate_squat(v)`: re-runs `calculation_init` (re-deriving the
channel type from `hT`), then evaluates the three formula sets and takes
the governing maximum; `none` models the propagated `AssertionError`. -/
def calculate_squat (c : Config) (v : ℝ) : Option ℝ :=
  (calculation_init c).map fun d => squatVal d v

/-- Values a numpy scalar computation can take: a finite real, `inf`,
`-inf` or `nan`.  Used only for the claims that are about numpy's
non-raising behaviour on the singular set. -/
inductive NpFloat where
  | finite (x : ℝ)
  | posInf
  | negInf
  | nan

/-- `np.sqrt`: a negative argument yields `nan` (with a `RuntimeWarning`),
never an exception. -/
def npSqrt (x : ℝ) : NpFloat :=
  if x < 0 then NpFloat.nan else NpFloat.finite (Real.sqrt x)

/-- IEEE-754 division of a finite numerator by an `NpFloat` denominator:
division by `0.0` of a nonzero numerator yields a signed infinity, `0/0`
and division by `nan` yield `nan`; numpy raises no exception. -/
def npDivFin (x : ℝ) : NpFloat → NpFloat
  | NpFloat.finite d =>
      if d = 0 then
        (if x = 0 then NpFloat.nan else if 0 < x then NpFloat.posInf else NpFloat.negInf)
      else NpFloat.finite (x/d)
  | NpFloat.posInf => NpFloat.finite 0
  | NpFloat.negInf => NpFloat.finite 0
  | NpFloat.nan => NpFloat.nan

/-- Return value of `calculation_Hooft` under numpy semantics: the division
`.../np.sqrt(1-Fnh**2)` produces `+inf` at `Fnh = 1` and `nan` for
`Fnh > 1`; no exception is raised anywhere in the method. -/
def ShbNp (d : Config) (v : ℝ) : NpFloat :=
  if d.hT = 0 then
    if Ukc d < 1.2 ∧ 0.8 ≤ C_B d then NpFloat.finite 0
    else npDivFin (2*C_B d*d.B*Tm d*(Fnh d v ^ 2)/d.L) (npSqrt (1 - Fnh d v ^ 2))
  else NpFloat.finite 0

/-- `np.arccos`: an argument outside `[-1, 1]` yields `nan` (with a
`RuntimeWarning`), never an exception. -/
def npArccos (x : ℝ) : NpFloat :=
  if x < -1 ∨ 1 < x then NpFloat.nan else NpFloat.finite (Real.arccos x)

/-- The `Kc` assignment under numpy semantics: `np.cos(nan)` is `nan` and
`nan**1.5` is `nan`, and a negative finite base raised to the fractional
power `1.5` is also `nan`; no exception is raised. -/
def KcNp (d : Config) : NpFloat :=
  match npArccos (1 - As d/Ach d) with
  | NpFloat.finite t =>
      if 2*Real.cos ((Real.pi + t)/3) < 0 then NpFloat.nan
      else NpFloat.finite ((2*Real.cos ((Real.pi + t)/3)) ^ (1.5:ℝ))
  | _ => NpFloat.nan

/-- The public calls that can be made on a constructed object. -/
inductive Op where
  | initOp
  | squatOp (v : ℝ)

/-- Cross-call state mutation of one public call.  `calculate_squat`
mutates the carried state exactly through its internal `calculation_init`
call (its other attribute writes are recomputed before any later read, see
the `Config` docstring); a raised `AssertionError` is `none`. -/
def applyOp (c : Config) : Op → Option Config
  | Op.initOp => calculation_init c
  | Op.squatOp _ => calculation_init c

/-- Run a sequence of public calls, threading the mutated state. -/
def runOps (c : Config) : List Op → Option Config
  | [] => some c
  | op :: ops => (applyOp c op).bind fun c1 => runOps c1 ops

/-- Unrestricted-channel configuration with `C_B = 1` and depth chosen so
that `sqrt(9.81*(h0+Dwl)) = 10`: the speed `v = 10` has `Fnh = 1` exactly
(`v = 11` has `Fnh > 1`). -/
def cfgC1 : Config :=
  { L := 1, B := 1, Tb := 2, Ts := 2, Displ := 2, C_WP := some 0.75,
    C_M := some 0.98, Npro := 1, bulbous_bow := false, transom_stern := false,
    rho := 1, Dwl := 0, h0 := 100/9.81, hT := 0, W := 10, Nb := 0 }

/-- Restricted-channel configuration (`W ≤ Weff`, `0 < hT < h0+Dwl`) whose
midship section `As = 100` exceeds twice the channel section `Ach = 0.1`,
so the arccos argument `1 - As/Ach = -999` is far outside `[-1, 1]`. -/
def cfgC3 : Config :=
  { L := 1, B := 10, Tb := 10, Ts := 10, Displ := 100, C_WP := some 0.75,
    C_M := some 1, Npro := 1, bulbous_bow := false, transom_stern := false,
    rho := 1, Dwl := 0, h0 := 10, hT := 5, W := 1/100, Nb := 0 }

/-- Simple valid unrestricted configuration: `C_B = 1`, `Weff = 7.04 < W`. -/
def cfgC4 : Config :=
  { L := 1, B := 1, Tb := 2, Ts := 2, Displ := 2, C_WP := some 0.75,
    C_M := some 0.98, Npro := 1, bulbous_bow := false, transom_stern := false,
    rho := 1, Dwl := 0, h0 := 5, hT := 0, W := 10, Nb := 0 }

/-- Valid restricted-channel configuration on which the governing squat is
negative: `C_B = 100`, `Ukc = 1` (so `Phtm = 0` and the trim vanishes),
`As/Ach = 1/2` (arccos argument in range) and `Sh = 45`, which makes
`Pch1 = 451 - 69*sqrt 45 < 0` and hence `Sab = Sas = SabPre < 0`. -/
def cfgC5x : Config :=
  { L := 1, B := 1, Tb := 10, Ts := 10, Displ := 1000, C_WP := some 1,
    C_M := some 1000, Npro := 1, bulbous_bow := false, transom_stern := false,
    rho := 1, Dwl := 0, h0 := 10, hT := 9, W := 1/10, Nb := 19999/100 }

/-- Simple valid unrestricted configuration (witness for the amended C5). -/
def cfgC5w : Config :=
  { L := 1, B := 1, Tb := 2, Ts := 2, Displ := 2, C_WP := some 0.75,
    C_M := some 0.98, Npro := 1, bulbous_bow := false, transom_stern := false,
    rho := 1, Dwl := 0, h0 := 5, hT := 0, W := 10, Nb := 0 }

/-- Simple valid unrestricted configuration (witness for C6). -/
def cfgC6w : Config :=
  { L := 1, B := 1, Tb := 2, Ts := 2, Displ := 2, C_WP := some 0.75,
    C_M := some 0.98, Npro := 1, bulbous_bow := false, transom_stern := false,
    rho := 1, Dwl := 0, h0 := 5, hT := 0, W := 10, Nb := 0 }

/-- Valid canal configuration exercising both documented mutations: `C_WP`
and `C_M` are absent (derived on the first call) and `hT = 9 > h0+Dwl = 5`
(clamped on the first call). -/
def cfgC7 : Config :=
  { L := 1, B := 1, Tb := 2, Ts := 2, Displ := 2, C_WP := none,
    C_M := none, Npro := 1, bulbous_bow := false, transom_stern := false,
    rho := 1, Dwl := 0, h0 := 5, hT := 9, W := 2, Nb := 0 }

/-- Simple valid unrestricted configuration with `Vcr > 0` (witness for C9). -/
def cfgC9 : Config :=
  { L := 1, B := 1, Tb := 2, Ts := 2, Displ := 2, C_WP := some 0.75,
    C_M := some 0.98, Npro := 1, bulbous_bow := false, transom_stern := false,
    rho := 1, Dwl := 0, h0 := 5, hT := 0, W := 10, Nb := 0 }

/-- Valid unrestricted configuration with an absent `C_WP`, so that the
first call genuinely mutates the state (witness for C10). -/
def cfgC10 : Config :=
  { L := 1, B := 1, Tb := 2, Ts := 2, Displ := 2, C_WP := none,
    C_M := some 0.98, Npro := 1, bulbous_bow := false, transom_stern := false,
    rho := 1, Dwl := 0, h0 := 5, hT := 0, W := 10, Nb := 0 }

end

end VC

namespace Scan

/-- The sampled speeds `velocity = np.linspace(0.01, 20, 1000)`:
`velocity i = 0.01 + i*(20-0.01)/999` (so `velocity 999 = 20 = Vmax`).
Generic over an ordered field so that witnesses can be evaluated over ℚ. -/
def velocity {α : Type*} [LinearOrderedField α] (i : ℕ) : α :=
  1/100 + (i : α)*((20 - 1/100)/999)

/-- The `while diff >= 0 and v <= Vlim` loop of the driver scripts, as the
search for the first sample index failing the continuation condition.
`fuel` is the number of array slots still accessible; `none` models the
`IndexError` raised by `velocity[1000]` when the condition holds at every
one of the 1000 samples. -/
def scanFrom {α : Type*} [LinearOrderedField α] (squat : α → α) (z m vlim : α) :
    ℕ → ℕ → Option ℕ
  | _, 0 => none
  | i, fuel+1 =>
      if 0 ≤ z - squat (velocity i) - m ∧ velocity i ≤ vlim then
        scanFrom squat z m vlim (i+1) fuel
      else some i

/-- Outcome reported after the loop: the scripts print the grounding
velocity (and the squat at it) only when `grounding_v <= Vlim`, and
otherwise report that the grounding velocity exceeds the limit speed. -/
inductive ScanResult (α : Type*) where
  | limitBound : ScanResult α
  | grounded (gv gs : α) : ScanResult α
  deriving DecidableEq

/-- The grounding-speed scan of the driver scripts:
`grounding_v = velocity[imax]` with `imax` the first failing index, and the
reported outcome branches on `grounding_v > Vlim`. -/
def scanOutcome {α : Type*} [LinearOrderedField α] (squat : α → α) (z m vlim : α) :
    Option (ScanResult α) :=
  (scanFrom squat z m vlim 0 1000).map fun imax =>
    if vlim < velocity imax then ScanResult.limitBound
    else ScanResult.grounded (velocity imax) (squat (velocity imax))

end Scan

namespace Scan

lemma velocity_le {α : Type*} [LinearOrderedField α] {i : ℕ} (h : i ≤ 999) :
    (velocity i : α) ≤ 20 := by
  unfold velocity
  have hi : (i : α) ≤ 999 := by exact_mod_cast h
  have hc : (0:α) ≤ (20 - 1/100)/999 := by norm_num
  have hmul := mul_le_mul_of_nonneg_right hi hc
  have hval : (999:α)*((20 - 1/100)/999) = 20 - 1/100 := by norm_num
  linarith

lemma velocity_999 {α : Type*} [LinearOrderedField α] : (velocity 999 : α) = 20 := by
  unfold velocity
  push_cast
  norm_num

lemma scanFrom_lt {α : Type*} [LinearOrderedField α] (squat : α → α) (z m vlim : α) :
    ∀ fuel i k, scanFrom squat z m vlim i fuel = some k → k < i + fuel := by
  intro fuel
  induction fuel with
  | zero => intro i k h; simp [scanFrom] at h
  | succ n ih =>
      intro i k h
      simp only [scanFrom] at h
      by_cases hc : 0 ≤ z - squat (velocity i) - m ∧ velocity i ≤ vlim
      · rw [if_pos hc] at h
        have := ih (i+1) k h
        omega
      · rw [if_neg hc] at h
        simp only [Option.some.injEq] at h
        omega

lemma scanFrom_none {α : Type*} [LinearOrderedField α] (squat : α → α) (z m vlim : α) :
    ∀ fuel i,
      (∀ j, i ≤ j → j < i + fuel → 0 ≤ z - squat (velocity j) - m ∧ velocity j ≤ vlim) →
      scanFrom squat z m vlim i fuel = none := by
  intro fuel
  induction fuel with
  | zero => intro i _; simp [scanFrom]
  | succ n ih =>
      intro i h
      have h0 := h i le_rfl (by omega)
      simp only [scanFrom]
      rw [if_pos h0]
      exact ih (i+1) fun j hj hjlt => h j (by omega) (by omega)

lemma scanFrom_first {α : Type*} [LinearOrderedField α] (squat : α → α) (z m vlim : α) :
    ∀ fuel i j, i ≤ j → j < i + fuel →
      ¬(0 ≤ z - squat (velocity j) - m ∧ velocity j ≤ vlim) →
      ∃ k, scanFrom squat z m vlim i fuel = some k ∧ k ≤ j ∧
        ¬(0 ≤ z - squat (velocity k) - m ∧ velocity k ≤ vlim) := by
  intro fuel
  induction fuel with
  | zero => intro i j hij hlt _; omega
  | succ n ih =>
      intro i j hij hlt hj
      by_cases hc : 0 ≤ z - squat (velocity i) - m ∧ velocity i ≤ vlim
      · have hij' : i + 1 ≤ j := by
          rcases Nat.eq_or_lt_of_le hij with rfl | hlt'
          · exact absurd hc hj
          · omega
        obtain ⟨k, hk, hkj, hkc⟩ := ih (i+1) j hij' (by omega) hj
        refine ⟨k, ?_, hkj, hkc⟩
        simp only [scanFrom]
        rw [if_pos hc]
        exact hk
      · refine ⟨i, ?_, hij, hc⟩
        simp only [scanFrom]
        rw [if_neg hc]

/-- C2: whenever the grounding-speed scan terminates normally and reports a
grounding velocity (rather than the limit-speed-bound message), that
velocity is at most the sampled upper bound `Vmax = 20` and at most the
limit speed `Vlim` passed in from initialization. -/
theorem claim_C2_grounding_speed_bounded {α : Type*} [LinearOrderedField α]
    (squat : α → α) (z m vlim gv gs : α)
    (h : scanOutcome squat z m vlim = some (ScanResult.grounded gv gs)) :
    gv ≤ 20 ∧ gv ≤ vlim := by
  unfold scanOutcome at h
  cases hsf : scanFrom squat z m vlim 0 1000 with
  | none => rw [hsf] at h; simp at h
  | some k =>
      rw [hsf] at h
      simp only [Option.map_some', Option.some.injEq] at h
      by_cases hlt : vlim < (velocity k : α)
      · rw [if_pos hlt] at h
        simp at h
      · rw [if_neg hlt] at h
        have hk : k ≤ 999 := by
          have := scanFrom_lt squat z m vlim 1000 0 k hsf
          omega
        have hgv : (velocity k : α) = gv := by
          simpa using congrArg (fun r => match r with
            | ScanResult.limitBound => (0:α)
            | ScanResult.grounded a _ => a) h
        rw [← hgv]
        exact ⟨velocity_le hk, not_lt.mp hlt⟩

lemma scanOutcome_eval_first {α : Type*} [LinearOrderedField α]
    (squat : α → α) (z m vlim : α)
    (h0 : ¬(0 ≤ z - squat (velocity 0) - m ∧ (velocity 0 : α) ≤ vlim))
    (hlt : ¬ vlim < (velocity 0 : α)) :
    scanOutcome squat z m vlim =
      some (ScanResult.grounded (velocity 0) (squat (velocity 0))) := by
  obtain ⟨k, hk, hk0, -⟩ :=
    scanFrom_first squat z m vlim 1000 0 0 le_rfl (by omega) h0
  have hk0' : k = 0 := Nat.le_zero.mp hk0
  subst hk0'
  unfold scanOutcome
  rw [hk]
  simp only [Option.map_some']
  rw [if_neg hlt]

/-- C2 witness: a concrete run over ℚ (squat so large that the very first
sample already violates clearance) reports `grounded 1/100 100`, and the
theorem bounds that grounding speed by `Vmax = 20` and `Vlim = 5`. -/
theorem claim_C2_witness : (1/100 : ℚ) ≤ 20 ∧ (1/100 : ℚ) ≤ 5 := by
  have hv0 : (velocity 0 : ℚ) = 1/100 := by
    unfold velocity
    norm_num
  refine claim_C2_grounding_speed_bounded (fun _ : ℚ => 100) 1 0 5 (1/100) 100 ?_
  have h := scanOutcome_eval_first (fun _ : ℚ => 100) 1 0 5
    (by rintro ⟨h1, -⟩; norm_num at h1)
    (by rw [hv0]; norm_num)
  simpa [hv0] using h

/-- C8 (amended): if the clearance difference stays non-negative at every
sampled speed up to the limit speed AND the limit speed is below the
sampled upper bound `Vmax = 20`, the scan terminates within the sampled
range and reports the limit-speed-bound outcome. -/
theorem claim_C8_limit_bound_below_vmax {α : Type*} [LinearOrderedField α]
    (squat : α → α) (z m vlim : α)
    (hdiff : ∀ i : ℕ, i ≤ 999 → (velocity i : α) ≤ vlim → 0 ≤ z - squat (velocity i) - m)
    (hvm : vlim < 20) :
    scanOutcome squat z m vlim = some ScanResult.limitBound := by
  have h999 : ¬(0 ≤ z - squat (velocity 999) - m ∧ (velocity 999 : α) ≤ vlim) := by
    rintro ⟨-, hle⟩
    rw [velocity_999] at hle
    exact absurd hle (not_le.mpr hvm)
  obtain ⟨k, hk, hk999, hkc⟩ :=
    scanFrom_first squat z m vlim 1000 0 999 (Nat.zero_le _) (by omega) h999
  have hvk : vlim < (velocity k : α) := by
    by_contra hle
    push_neg at hle
    exact hkc ⟨hdiff k hk999 hle, hle⟩
  unfold scanOutcome
  rw [hk]
  simp only [Option.map_some', if_pos hvk]

/-- C8 witness: over ℚ with zero squat, clearance 1 and `Vlim = 10 < 20`,
the scan reports the limit-speed-bound outcome. -/
theorem claim_C8_witness :
    scanOutcome (fun _ : ℚ => 0) 1 0 10 = some ScanResult.limitBound :=
  claim_C8_limit_bound_below_vmax (fun _ => 0) 1 0 10
    (fun i _ _ => by norm_num) (by norm_num)

/-- C8 counterexample to the claim as stated: with zero squat, clearance 1
and `Vlim = 20` (the sampled upper bound), the clearance difference is
non-negative at every sampled speed, yet the scan does not report the
limit-speed-bound outcome: the loop condition holds at all 1000 samples,
so the loop accesses `velocity[1000]` and dies with an `IndexError`
(modelled by `none`). -/
theorem claim_C8_counterexample :
    (∀ i : ℕ, i ≤ 999 → 0 ≤ (1:ℚ) - 0 - 0) ∧
    scanOutcome (fun _ : ℚ => 0) 1 0 20 = none := by
  constructor
  · intro i _
    norm_num
  · unfold scanOutcome
    rw [scanFrom_none (fun _ : ℚ => 0) 1 0 20 1000 0 ?_]
    · rfl
    · intro j _ hj
      exact ⟨by norm_num, velocity_le (by omega)⟩

end Scan

namespace VC

lemma clamphT_le (c : Config) : clamphT c ≤ c.h0 + c.Dwl := by
  unfold clamphT
  split
  · exact le_rfl
  · exact le_of_not_lt (by assumption)

lemma clamphT_normalize (c : Config) : clamphT (normalizeConfig c) = clamphT c := by
  show (if c.h0 + c.Dwl < clamphT c then c.h0 + c.Dwl else clamphT c) = clamphT c
  rw [if_neg (not_lt.mpr (clamphT_le c))]

lemma normalizeConfig_idem (c : Config) :
    normalizeConfig (normalizeConfig c) = normalizeConfig c := by
  apply Config.ext
  all_goals first
    | rfl
    | exact clamphT_normalize c

lemma calculation_init_some (c d : Config) (h : calculation_init c = some d) :
    d = normalizeConfig c ∧ validGeomPost (normalizeConfig c) := by
  unfold calculation_init at h
  by_cases hv : validGeomPost (normalizeConfig c)
  · rw [if_pos hv] at h
    injection h with h
    exact ⟨h.symm, hv⟩
  · rw [if_neg hv] at h
    cases h

lemma init_second (c d : Config) (h : calculation_init c = some d) :
    calculation_init d = some d := by
  obtain ⟨rfl, hv⟩ := calculation_init_some c d h
  unfold calculation_init
  rw [normalizeConfig_idem, if_pos hv]

lemma init_none_iff_not_valid (c : Config) :
    calculation_init c = none ↔ ¬ validGeomPost (normalizeConfig c) := by
  unfold calculation_init
  by_cases hv : validGeomPost (normalizeConfig c)
  · simp [hv]
  · simp [hv]

lemma validGeomPost_norm_iff (c : Config) :
    validGeomPost (normalizeConfig c) ↔
      (c.W ≤ Weff c → 0 < clamphT c ∧ 0 ≤ c.Nb) ∧
      (¬ c.W ≤ Weff c → clamphT c = 0 ∧ c.Nb = 0) ∧ 0 < c.Npro := by
  unfold validGeomPost
  by_cases hle : c.W ≤ Weff c
  · rw [if_pos (show (normalizeConfig c).W ≤ Weff (normalizeConfig c) from hle)]
    have hcl := clamphT_le c
    constructor
    · rintro ⟨⟨h1, -, h3⟩, h4⟩
      exact ⟨fun _ => ⟨h1, h3⟩, fun h => absurd hle h, h4⟩
    · rintro ⟨h1, -, h4⟩
      obtain ⟨ha, hb⟩ := h1 hle
      exact ⟨⟨ha, hcl, hb⟩, h4⟩
  · rw [if_neg (show ¬ (normalizeConfig c).W ≤ Weff (normalizeConfig c) from hle)]
    constructor
    · rintro ⟨⟨h1, h2⟩, h4⟩
      exact ⟨fun h => absurd h hle, fun _ => ⟨h1, h2⟩, h4⟩
    · rintro ⟨-, h2, h4⟩
      exact ⟨h2 hle, h4⟩

lemma valid_unres (c : Config) (hW : ¬ c.W ≤ Weff c) (hT : c.hT = 0)
    (hcl : ¬ (c.h0 + c.Dwl < c.hT)) (hNb : c.Nb = 0) (hNp : 0 < c.Npro) :
    validGeomPost (normalizeConfig c) := by
  unfold validGeomPost
  rw [if_neg (show ¬ (normalizeConfig c).W ≤ Weff (normalizeConfig c) from hW)]
  refine ⟨⟨?_, hNb⟩, hNp⟩
  show clamphT c = 0
  unfold clamphT
  rw [if_neg hcl]
  exact hT

lemma init_fixed (c : Config) (hcl : ¬ (c.h0 + c.Dwl < c.hT))
    (w : ℝ) (hw : c.C_WP = some w) (m : ℝ) (hm : c.C_M = some m)
    (hv : validGeomPost (normalizeConfig c)) : calculation_init c = some c := by
  have hn : normalizeConfig c = c := by
    apply Config.ext
    all_goals first
      | rfl
      | (show clamphT c = c.hT
         unfold clamphT
         rw [if_neg hcl])
      | (show some (C_WPval c) = c.C_WP
         unfold C_WPval
         rw [hw]
         rfl)
      | (show some (C_Mval c) = c.C_M
         unfold C_Mval
         rw [hm]
         rfl)
  unfold calculation_init
  rw [hn, if_pos (hn ▸ hv)]

end VC

namespace VC

lemma init_norm (c : Config) (hv : validGeomPost (normalizeConfig c)) :
    calculation_init c = some (normalizeConfig c) := by
  unfold calculation_init
  rw [if_pos hv]

lemma valid_res (c : Config) (hW : c.W ≤ Weff c) (h1 : 0 < clamphT c)
    (h2 : 0 ≤ c.Nb) (hNp : 0 < c.Npro) : validGeomPost (normalizeConfig c) := by
  unfold validGeomPost
  rw [if_pos (show (normalizeConfig c).W ≤ Weff (normalizeConfig c) from hW)]
  exact ⟨⟨h1, clamphT_le c, h2⟩, hNp⟩

lemma cfgC4_CB : C_B cfgC4 = 1 := by
  unfold C_B Tm
  norm_num [cfgC4]

lemma cfgC4_init : calculation_init cfgC4 = some cfgC4 := by
  have hW : ¬ cfgC4.W ≤ Weff cfgC4 := by
    unfold Weff
    rw [cfgC4_CB, Real.one_rpow]
    norm_num [cfgC4]
  refine init_fixed cfgC4 (by norm_num [cfgC4]) 0.75 rfl 0.98 rfl ?_
  exact valid_unres cfgC4 hW rfl (by norm_num [cfgC4]) rfl (by norm_num [cfgC4])

/-- C4: `calculate_squat` re-derives the channel type from `hT` on every
call and returns exactly `max(Shb, Srb, Srs)` in the unrestricted case
(where the Ankudinov candidates are forced to 0), `max(Sab, Sas)` in the
restricted case, and `max(Sab, Sas, Srb, Srs)` in the canal case. -/
theorem claim_C4_channel_type_selection (c d : Config) (v : ℝ) (hv : 0 < v)
    (h : calculation_init c = some d) :
    calculate_squat c v = some (squatVal d v) ∧
    (d.hT = 0 →
      squatVal d v = max (Shb d v) (max (Srb d v) (Srs d v)) ∧
      Sab d v = 0 ∧ Sas d v = 0) ∧
    (0 < d.hT ∧ d.hT < d.h0 + d.Dwl → squatVal d v = max (Sab d v) (Sas d v)) ∧
    (0 < d.hT ∧ d.hT = d.h0 + d.Dwl →
      squatVal d v = max (max (Sab d v) (Sas d v)) (max (Srb d v) (Srs d v))) := by
  refine ⟨?_, ?_, ?_, ?_⟩
  · unfold calculate_squat
    rw [h]
    rfl
  · intro h0
    refine ⟨?_, ?_, ?_⟩
    · unfold squatVal
      rw [if_pos h0]
    · unfold Sab
      rw [if_pos h0]
    · unfold Sas
      rw [if_pos h0]
  · rintro ⟨hpos, hlt⟩
    unfold squatVal
    rw [if_neg (ne_of_gt hpos), if_pos hlt]
  · rintro ⟨hpos, heq⟩
    unfold squatVal
    rw [if_neg (ne_of_gt hpos),
      if_neg (show ¬ d.hT < d.h0 + d.Dwl by rw [heq]; exact lt_irrefl _),
      if_pos heq]

/-- C4 witness: on the concrete unrestricted configuration `cfgC4` at
`v = 1`, the governing squat is the maximum of the Hooft and Römisch
candidates and the Ankudinov candidates are zero. -/
theorem claim_C4_witness :
    calculate_squat cfgC4 1 = some (squatVal cfgC4 1) ∧
    squatVal cfgC4 1 = max (Shb cfgC4 1) (max (Srb cfgC4 1) (Srs cfgC4 1)) ∧
    Sab cfgC4 1 = 0 ∧ Sas cfgC4 1 = 0 := by
  obtain ⟨h1, h2, -, -⟩ :=
    claim_C4_channel_type_selection cfgC4 cfgC4 1 (by norm_num) cfgC4_init
  obtain ⟨h3, h4, h5⟩ := h2 rfl
  exact ⟨h1, h3, h4, h5⟩

lemma cfgC7_CB : C_B cfgC7 = 1 := by
  unfold C_B Tm
  norm_num [cfgC7]

lemma cfgC7_init : calculation_init cfgC7 = some (normalizeConfig cfgC7) := by
  apply init_norm
  apply valid_res
  · unfold Weff
    rw [cfgC7_CB, Real.one_rpow]
    norm_num [cfgC7]
  · unfold clamphT
    rw [if_pos (by norm_num [cfgC7])]
    norm_num [cfgC7]
  · norm_num [cfgC7]
  · norm_num [cfgC7]

/-- C7: initialization is idempotent.  A successful call on entry state `c`
leaves the object in state `d`; a second call succeeds, leaves the object
in the same state `e = d`, and therefore reproduces bit-identical values of
the derived quantities `Weff`, `Vlim`, `Ach` and `Vcr` (which are functions
of the post-call state). -/
theorem claim_C7_init_idempotent (c d : Config) (h : calculation_init c = some d) :
    ∃ e, calculation_init d = some e ∧ e = d ∧
      Weff e = Weff d ∧ Vlim e = Vlim d ∧ Ach e = Ach d ∧ Vcr e = Vcr d :=
  ⟨d, init_second c d h, rfl, rfl, rfl, rfl, rfl⟩

/-- C7 witness: on `cfgC7`, whose first call derives the absent `C_WP` and
`C_M` and clamps `hT = 9` down to `h0+Dwl = 5`, the second call succeeds
and reproduces identical derived state. -/
theorem claim_C7_witness :
    ∃ e, calculation_init (normalizeConfig cfgC7) = some e ∧ e = normalizeConfig cfgC7 ∧
      Weff e = Weff (normalizeConfig cfgC7) ∧ Vlim e = Vlim (normalizeConfig cfgC7) ∧
      Ach e = Ach (normalizeConfig cfgC7) ∧ Vcr e = Vcr (normalizeConfig cfgC7) :=
  claim_C7_init_idempotent cfgC7 (normalizeConfig cfgC7) cfgC7_init

/-- C9: the limit speed equals the critical speed exactly; in particular
whenever the critical speed is nonzero, the limit speed differs from the
documented `0.9*Vcr` reduction. -/
theorem claim_C9_vlim_eq_vcr (c : Config) :
    Vlim c = Vcr c ∧ (Vcr c ≠ 0 → Vlim c ≠ 0.9*Vcr c) := by
  refine ⟨rfl, fun hne heq => hne ?_⟩
  unfold Vlim at heq
  linarith

/-- C9 witness: on the concrete configuration `cfgC9` the critical speed is
positive, so `Vlim = Vcr` and `Vlim ≠ 0.9*Vcr`. -/
theorem claim_C9_witness :
    Vlim cfgC9 = Vcr cfgC9 ∧ Vlim cfgC9 ≠ 0.9*Vcr cfgC9 := by
  have hT0 : cfgC9.hT = 0 := rfl
  have hx : (cfgC9.h0 + cfgC9.Dwl)*cfgC9.L/cfgC9.B/Tm cfgC9 = 2.5 := by
    unfold Tm
    norm_num [cfgC9]
  have hKch : 0 < Kch cfgC9 := by
    unfold Kch
    rw [hx]
    positivity
  have hsq : 0 < Real.sqrt (9.81*(cfgC9.h0 + cfgC9.Dwl)) := by
    apply Real.sqrt_pos.mpr
    norm_num [cfgC9]
  have hVcr : 0 < Vcr cfgC9 := by
    unfold Vcr
    rw [if_pos hT0]
    exact mul_pos hKch hsq
  exact ⟨(claim_C9_vlim_eq_vcr cfgC9).1, (claim_C9_vlim_eq_vcr cfgC9).2 (ne_of_gt hVcr)⟩

/-- C10: `calculate_squat` is history-independent.  Whatever sequence of
successful `calculation_init` / `calculate_squat` calls was made on the
object (state threading modelled by `runOps`), a subsequent
`calculate_squat v` returns the same value as it would have on the freshly
constructed object. -/
theorem claim_C10_history_independent (c e : Config) (ops : List Op) (v : ℝ)
    (h : runOps c ops = some e) :
    calculate_squat e v = calculate_squat c v := by
  induction ops generalizing c with
  | nil =>
      unfold runOps at h
      injection h with h
      rw [← h]
  | cons op ops ih =>
      unfold runOps at h
      cases hap : applyOp c op with
      | none =>
          rw [hap] at h
          simp at h
      | some c1 =>
          rw [hap] at h
          simp only [Option.some_bind] at h
          have hinit : calculation_init c = some c1 := by
            cases op
            · exact hap
            · exact hap
          have h2 : calculate_squat c1 v = calculate_squat c v := by
            unfold calculate_squat
            rw [hinit, init_second c c1 hinit]
          rw [ih c1 h, h2]

lemma cfgC10_CB : C_B cfgC10 = 1 := by
  unfold C_B Tm
  norm_num [cfgC10]

lemma cfgC10_init : calculation_init cfgC10 = some (normalizeConfig cfgC10) := by
  apply init_norm
  apply valid_unres
  · unfold Weff
    rw [cfgC10_CB, Real.one_rpow]
    norm_num [cfgC10]
  · rfl
  · norm_num [cfgC10]
  · rfl
  · norm_num [cfgC10]

/-- C10 witness: on `cfgC10` (whose absent `C_WP` makes the first call
genuinely mutate the state), evaluating the squat after a prior
initialization call gives the same value as evaluating it first. -/
theorem claim_C10_witness :
    calculate_squat (normalizeConfig cfgC10) 1 = calculate_squat cfgC10 1 := by
  apply claim_C10_history_independent cfgC10 (normalizeConfig cfgC10) [Op.initOp] 1
  unfold runOps applyOp
  rw [cfgC10_init]
  rfl

end VC

namespace VC

/-- C6: after the documented hT clamp, initialization raises its
configuration error (`AssertionError`, modelled by `none`) precisely when
`(W ≤ Weff ∧ (hT ≤ 0 ∨ Nb < 0)) ∨ (W > Weff ∧ (hT ≠ 0 ∨ Nb ≠ 0)) ∨
Npro ≤ 0` (with `hT` the clamped value), and a successful call changes
nothing beyond the clamp and the documented derivation of an absent
`C_WP`/`C_M`.  The positivity hypotheses delimit the region where the
exact-real model agrees with Python (elsewhere Python raises a different
exception, `ZeroDivisionError`, before reaching the asserts). -/
theorem claim_C6_validation_iff (c : Config) (hL : 0 < c.L) (hB : 0 < c.B)
    (hTbTs : 0 < c.Tb + c.Ts) (hD : 0 < c.Displ) (hrho : 0 < c.rho) :
    (calculation_init c = none ↔
      (c.W ≤ Weff c ∧ (clamphT c ≤ 0 ∨ c.Nb < 0)) ∨
      (Weff c < c.W ∧ (clamphT c ≠ 0 ∨ c.Nb ≠ 0)) ∨
      c.Npro ≤ 0) ∧
    ∀ d, calculation_init c = some d →
      d = { c with hT := clamphT c, C_WP := some (C_WPval c), C_M := some (C_Mval c) } := by
  constructor
  · rw [init_none_iff_not_valid, validGeomPost_norm_iff]
    have e1 : clamphT c ≤ 0 ↔ ¬ 0 < clamphT c := not_lt.symm
    have e2 : c.Nb < 0 ↔ ¬ 0 ≤ c.Nb := not_le.symm
    have e3 : Weff c < c.W ↔ ¬ c.W ≤ Weff c := not_le.symm
    have e4 : c.Npro ≤ 0 ↔ ¬ 0 < c.Npro := not_lt.symm
    rw [e1, e2, e3, e4]
    tauto
  · intro d h
    exact (calculation_init_some c d h).1

/-- C6 witness: the validation characterization instantiated at the
concrete configuration `cfgC6w`. -/
theorem claim_C6_witness :
    (calculation_init cfgC6w = none ↔
      (cfgC6w.W ≤ Weff cfgC6w ∧ (clamphT cfgC6w ≤ 0 ∨ cfgC6w.Nb < 0)) ∨
      (Weff cfgC6w < cfgC6w.W ∧ (clamphT cfgC6w ≠ 0 ∨ cfgC6w.Nb ≠ 0)) ∨
      cfgC6w.Npro ≤ 0) ∧
    ∀ d, calculation_init cfgC6w = some d →
      d = { cfgC6w with hT := clamphT cfgC6w, C_WP := some (C_WPval cfgC6w), C_M := some (C_Mval cfgC6w) } :=
  claim_C6_validation_iff cfgC6w (by norm_num [cfgC6w]) (by norm_num [cfgC6w])
    (by norm_num [cfgC6w]) (by norm_num [cfgC6w]) (by norm_num [cfgC6w])

/-- C5 (amended): the governing squat is non-negative both in the
unrestricted case (`hT = 0`, where it is `max(Shb, Srb, Srs)` over
non-negative candidates) and in the canal case (`hT = h0+Dwl`, whose
maximum includes the non-negative Römisch candidates `Srb`, `Srs`); only
the restricted case, whose maximum ranges over the unclamped Ankudinov
candidates alone, can return a negative value (see the counterexample). -/
theorem claim_C5_amended_nonneg_unrestricted_or_canal (c d : Config) (v : ℝ)
    (h : calculation_init c = some d)
    (hcase : d.hT = 0 ∨ d.hT = d.h0 + d.Dwl)
    (hL : 0 < c.L) (hB : 0 < c.B) (hTbTs : 0 < c.Tb + c.Ts)
    (hD : 0 ≤ c.Displ) (hrho : 0 < c.rho) :
    calculate_squat c v = some (squatVal d v) ∧ 0 ≤ squatVal d v := by
  obtain ⟨rfl, hvalid⟩ := calculation_init_some c d h
  refine ⟨?_, ?_⟩
  · unfold calculate_squat
    rw [h]
    rfl
  · have hTm : 0 ≤ Tm (normalizeConfig c) := by
      unfold Tm
      show (0:ℝ) ≤ (c.Tb + c.Ts)/2
      linarith
    have hCv : 0 ≤ Cv (normalizeConfig c) v := by
      unfold Cv
      positivity
    have hCf : 0 ≤ Cf (normalizeConfig c) := by
      unfold Cf
      positivity
    have hKdt : 0 ≤ Kdt (normalizeConfig c) := by
      unfold Kdt
      positivity
    by_cases hT0 : (normalizeConfig c).hT = 0
    · have hTmpos : (0:ℝ) < (c.Tb + c.Ts)/2 := by linarith
      have hden : (0:ℝ) < c.L*c.B*((c.Tb + c.Ts)/2)*c.rho :=
        mul_pos (mul_pos (mul_pos hL hB) hTmpos) hrho
      have hCB : 0 ≤ C_B (normalizeConfig c) := by
        unfold C_B Tm
        show (0:ℝ) ≤ c.Displ/(c.L*c.B*((c.Tb + c.Ts)/2)*c.rho)
        exact div_nonneg hD (le_of_lt hden)
      have hShb : 0 ≤ Shb (normalizeConfig c) v := by
        unfold Shb
        rw [if_pos hT0]
        split
        · exact le_refl 0
        · refine div_nonneg (div_nonneg ?_ ?_) (Real.sqrt_nonneg _)
          · exact mul_nonneg (mul_nonneg (mul_nonneg
              (mul_nonneg (by norm_num) hCB)
              (show (0:ℝ) ≤ c.B from le_of_lt hB)) hTm) (sq_nonneg _)
          · exact (show (0:ℝ) ≤ c.L from le_of_lt hL)
      unfold squatVal
      rw [if_pos hT0]
      exact le_max_of_le_left hShb
    · have heq : (normalizeConfig c).hT = (normalizeConfig c).h0 + (normalizeConfig c).Dwl := by
        rcases hcase with h0 | h0
        · exact absurd h0 hT0
        · exact h0
      have hnlt : ¬ (normalizeConfig c).hT < (normalizeConfig c).h0 + (normalizeConfig c).Dwl := by
        rw [heq]
        exact lt_irrefl _
      have hSrb : 0 ≤ Srb (normalizeConfig c) v := by
        unfold Srb
        rw [if_neg hT0, if_neg hnlt, if_pos heq]
        split
        · exact le_refl 0
        · exact mul_nonneg (mul_nonneg (mul_nonneg hCv hCf) hKdt) hTm
      unfold squatVal
      rw [if_neg hT0, if_neg hnlt, if_pos heq]
      exact le_max_of_le_right (le_max_of_le_left hSrb)

lemma cfgC5w_CB : C_B cfgC5w = 1 := by
  unfold C_B Tm
  norm_num [cfgC5w]

lemma cfgC5w_init : calculation_init cfgC5w = some cfgC5w := by
  have hW : ¬ cfgC5w.W ≤ Weff cfgC5w := by
    unfold Weff
    rw [cfgC5w_CB, Real.one_rpow]
    norm_num [cfgC5w]
  refine init_fixed cfgC5w (by norm_num [cfgC5w]) 0.75 rfl 0.98 rfl ?_
  exact valid_unres cfgC5w hW rfl (by norm_num [cfgC5w]) rfl (by norm_num [cfgC5w])

/-- C5 amended witness: on the concrete unrestricted configuration `cfgC5w`
at `v = 1` the returned governing squat is non-negative. -/
theorem claim_C5_amended_witness :
    calculate_squat cfgC5w 1 = some (squatVal cfgC5w 1) ∧ 0 ≤ squatVal cfgC5w 1 :=
  claim_C5_amended_nonneg_unrestricted_or_canal cfgC5w cfgC5w 1 cfgC5w_init
    (Or.inl rfl)
    (by norm_num [cfgC5w]) (by norm_num [cfgC5w]) (by norm_num [cfgC5w])
    (by norm_num [cfgC5w]) (by norm_num [cfgC5w])

lemma rpow_hundred_le : ((100:ℝ) ^ (0.85:ℝ)) ≤ 70.4 := by
  have hpow : ((100:ℝ) ^ (0.85:ℝ)) ^ (20:ℕ) = (100:ℝ) ^ (17:ℕ) := by
    rw [← Real.rpow_natCast ((100:ℝ) ^ (0.85:ℝ)) 20,
      ← Real.rpow_mul (by norm_num : (0:ℝ) ≤ 100),
      show ((0.85:ℝ))*((20:ℕ):ℝ) = ((17:ℕ):ℝ) by push_cast; norm_num,
      Real.rpow_natCast]
  refine le_of_pow_le_pow_left₀ (by norm_num : (20:ℕ) ≠ 0) (by norm_num : (0:ℝ) ≤ 70.4) ?_
  rw [hpow]
  norm_num

end VC

namespace VC

lemma cfgC5x_CB : C_B cfgC5x = 100 := by
  unfold C_B Tm
  norm_num [cfgC5x]

lemma cfgC5x_Tm : Tm cfgC5x = 10 := by
  unfold Tm
  norm_num [cfgC5x]

lemma cfgC5x_Wle : cfgC5x.W ≤ Weff cfgC5x := by
  have hpos : (0:ℝ) < (100:ℝ) ^ (0.85:ℝ) := Real.rpow_pos_of_pos (by norm_num) _
  unfold Weff
  rw [cfgC5x_CB]
  have h1 : cfgC5x.W = 1/10 := rfl
  have h2 : cfgC5x.B = 1 := rfl
  rw [h1, h2, le_div_iff₀ hpos]
  have := rpow_hundred_le
  linarith

lemma cfgC5x_hcl : ¬ (cfgC5x.h0 + cfgC5x.Dwl < cfgC5x.hT) := by
  norm_num [cfgC5x]

lemma cfgC5x_init : calculation_init cfgC5x = some cfgC5x := by
  refine init_fixed cfgC5x cfgC5x_hcl 1 rfl 1000 rfl ?_
  refine valid_res cfgC5x cfgC5x_Wle ?_ (by norm_num [cfgC5x]) (by norm_num [cfgC5x])
  unfold clamphT
  rw [if_neg cfgC5x_hcl]
  norm_num [cfgC5x]

/-- C5 counterexample: `cfgC5x` passes initialization unchanged (a valid
restricted-channel configuration), the speed `1` is positive, the squat
evaluation returns a value, and that returned governing squat is negative
(the Ankudinov channel factor `Pch1 = 451 - 69*sqrt 45` is negative and no
clamping is applied), refuting "the returned governing squat value is ≥ 0". -/
theorem claim_C5_counterexample :
    calculation_init cfgC5x = some cfgC5x ∧ (0:ℝ) < 1 ∧
    calculate_squat cfgC5x 1 = some (squatVal cfgC5x 1) ∧
    squatVal cfgC5x 1 < 0 := by
  have hTne : cfgC5x.hT ≠ 0 := by norm_num [cfgC5x]
  have hTlt : cfgC5x.hT < cfgC5x.h0 + cfgC5x.Dwl := by norm_num [cfgC5x]
  have hUkc : Ukc cfgC5x = 1 := by
    unfold Ukc Tm
    norm_num [cfgC5x]
  have hAs : As cfgC5x = 10000 := by
    unfold As C_Mval Tm
    simp [cfgC5x]
    norm_num
  have hAch : Ach cfgC5x = 20000 := by
    unfold Ach
    rw [if_pos cfgC5x_Wle]
    norm_num [cfgC5x]
  have hSh : Sh cfgC5x = 45 := by
    unfold Sh
    rw [cfgC5x_CB, cfgC5x_Tm, hAs, hAch]
    norm_num [cfgC5x]
  have hPch1 : Pch1 cfgC5x < 0 := by
    unfold Pch1
    rw [if_neg hTne, hSh]
    have hs : Real.sqrt 45 ^ 2 = 45 := Real.sq_sqrt (by norm_num)
    nlinarith [Real.sqrt_nonneg 45, hs]
  have hPhtm : Phtm cfgC5x 1 = 0 := by
    unfold Phtm
    rw [hUkc]
    simp
  have hTrim : Trim cfgC5x 1 = 0 := by
    unfold Trim
    rw [hPhtm]
    ring
  have hKps : Kps cfgC5x = 0.15 := by
    unfold Kps
    norm_num [cfgC5x]
  have hPhu : 0 < Phu cfgC5x := by
    unfold Phu
    rw [cfgC5x_CB, cfgC5x_Tm]
    norm_num [cfgC5x]
  have hFnh : 0 < Fnh cfgC5x 1 := by
    unfold Fnh
    refine div_pos one_pos (Real.sqrt_pos.mpr ?_)
    norm_num [cfgC5x]
  have hPfnh : 0 < Pfnh cfgC5x 1 := by
    unfold Pfnh
    exact Real.rpow_pos_of_pos hFnh _
  have hPht : Pht cfgC5x = 1.35 := by
    unfold Pht
    rw [hUkc]
    norm_num
  have hL5 : cfgC5x.L = 1 := rfl
  have hSabPre : SabPre cfgC5x 1 < 0 := by
    unfold SabPre
    rw [hKps, hL5, hPht]
    refine mul_neg_of_pos_of_neg ?_ hPch1
    have h1 : (0:ℝ) < 1*(1 + 0.15) := by norm_num
    exact mul_pos (mul_pos (mul_pos h1 hPhu) hPfnh) (by norm_num)
  have hSab5 : Sab cfgC5x 1 = SabPre cfgC5x 1 := by
    unfold Sab
    rw [if_neg hTne, if_pos hTlt, hTrim]
    ring
  have hSas5 : Sas cfgC5x 1 = SabPre cfgC5x 1 := by
    unfold Sas
    rw [if_neg hTne, if_pos hTlt, hTrim]
    ring
  have hsquat : squatVal cfgC5x 1 = SabPre cfgC5x 1 := by
    unfold squatVal
    rw [if_neg hTne, if_pos hTlt, hSab5, hSas5, max_self]
  refine ⟨cfgC5x_init, by norm_num, ?_, ?_⟩
  · unfold calculate_squat
    rw [cfgC5x_init]
    rfl
  · rw [hsquat]
    exact hSabPre

lemma cfgC1_CB : C_B cfgC1 = 1 := by
  unfold C_B Tm
  norm_num [cfgC1]

lemma cfgC1_init : calculation_init cfgC1 = some cfgC1 := by
  have hW : ¬ cfgC1.W ≤ Weff cfgC1 := by
    unfold Weff
    rw [cfgC1_CB, Real.one_rpow]
    norm_num [cfgC1]
  refine init_fixed cfgC1 (by norm_num [cfgC1]) 0.75 rfl 0.98 rfl ?_
  exact valid_unres cfgC1 hW rfl (by norm_num [cfgC1]) rfl (by norm_num [cfgC1])

/-- C1: the claim fails on the code.  On the valid unrestricted
configuration `cfgC1` (whose critical Froude speed is exactly 10), the
squat evaluation at `v = 10` (`Fnh = 1`) evaluates the Hooft term to `+inf`
(division of the positive finite numerator 4 by `sqrt(1-1) = 0.0`), and at
`v = 11` (`Fnh = 1.1 > 1`) to `nan` (`np.sqrt` of a negative argument);
neither raises any exception, let alone a `DomainError`. -/
theorem claim_C1_hooft_returns_nonfinite :
    calculation_init cfgC1 = some cfgC1 ∧ Fnh cfgC1 10 = 1 ∧
    ShbNp cfgC1 10 = NpFloat.posInf ∧ ShbNp cfgC1 11 = NpFloat.nan := by
  have hsq : Real.sqrt (9.81*(cfgC1.h0 + cfgC1.Dwl)) = 10 := by
    have h1 : (9.81:ℝ)*(cfgC1.h0 + cfgC1.Dwl) = 100 := by norm_num [cfgC1]
    rw [h1, show (100:ℝ) = 10 ^ 2 by norm_num, Real.sqrt_sq (by norm_num : (0:ℝ) ≤ 10)]
  have hF10 : Fnh cfgC1 10 = 1 := by
    unfold Fnh
    rw [hsq]
    norm_num
  have hF11 : Fnh cfgC1 11 = 11/10 := by
    unfold Fnh
    rw [hsq]
  have hUkc : ¬ (Ukc cfgC1 < 1.2 ∧ 0.8 ≤ C_B cfgC1) := by
    rintro ⟨h1, -⟩
    unfold Ukc Tm at h1
    norm_num [cfgC1] at h1
  have hT0 : cfgC1.hT = 0 := rfl
  refine ⟨cfgC1_init, hF10, ?_, ?_⟩
  · unfold ShbNp
    rw [if_pos hT0, if_neg hUkc, hF10]
    have hnum : 2*C_B cfgC1*cfgC1.B*Tm cfgC1*((1:ℝ) ^ 2)/cfgC1.L = 4 := by
      rw [cfgC1_CB]
      unfold Tm
      norm_num [cfgC1]
    rw [hnum, show (1:ℝ) - 1 ^ 2 = 0 by norm_num]
    unfold npSqrt
    rw [if_neg (lt_irrefl (0:ℝ)), Real.sqrt_zero]
    norm_num [npDivFin]
  · unfold ShbNp
    rw [if_pos hT0, if_neg hUkc, hF11]
    have hneg : (1:ℝ) - (11/10) ^ 2 < 0 := by norm_num
    unfold npSqrt
    rw [if_pos hneg]
    rfl

lemma cfgC3_CB : C_B cfgC3 = 1 := by
  unfold C_B Tm
  norm_num [cfgC3]

lemma cfgC3_Wle : cfgC3.W ≤ Weff cfgC3 := by
  unfold Weff
  rw [cfgC3_CB, Real.one_rpow]
  norm_num [cfgC3]

lemma cfgC3_init : calculation_init cfgC3 = some cfgC3 := by
  have hcl : ¬ (cfgC3.h0 + cfgC3.Dwl < cfgC3.hT) := by norm_num [cfgC3]
  refine init_fixed cfgC3 hcl 0.75 rfl 1 rfl ?_
  refine valid_res cfgC3 cfgC3_Wle ?_ (by norm_num [cfgC3]) (by norm_num [cfgC3])
  unfold clamphT
  rw [if_neg hcl]
  norm_num [cfgC3]

/-- C3: the claim fails on the code.  On the configuration `cfgC3`
initialization succeeds (no exception is raised): the asserts all pass,
yet the arccos argument `1 - As/Ach = -999` lies far below `-1`, and under
numpy semantics the `Kc` assignment evaluates to `nan` (which then
propagates into `Vcr` and `Vlim`), rather than raising a `DomainError`. -/
theorem claim_C3_arccos_nan_not_error :
    calculation_init cfgC3 = some cfgC3 ∧ 1 - As cfgC3/Ach cfgC3 < -1 ∧
    KcNp cfgC3 = NpFloat.nan := by
  have hAs : As cfgC3 = 100 := by
    unfold As C_Mval Tm
    simp [cfgC3]
    norm_num
  have hAch : Ach cfgC3 = 1/10 := by
    unfold Ach
    rw [if_pos cfgC3_Wle]
    norm_num [cfgC3]
  have harg : 1 - As cfgC3/Ach cfgC3 = -999 := by
    rw [hAs, hAch]
    norm_num
  refine ⟨cfgC3_init, by rw [harg]; norm_num, ?_⟩
  unfold KcNp
  rw [harg]
  unfold npArccos
  rw [if_pos (Or.inl (by norm_num : (-999:ℝ) < -1))]

end VC
